import Mathlib

/-!
Shallow embedding of the ranking engine of `ws_dashboard.py`
(`calculate_rankings` and its inner `assign_category`), together with
theorems settling the specification claims about it.

Modelling notes, traced from the source:
* A dataframe row becomes a `Record`; the three metric columns are
  rational values (the engine only compares and counts them).
* `Series.rank(ascending=False)` with pandas' default `method='average'`
  assigns to a value `v` the mean of the descending-sort positions of its
  tie group: with `g` strictly greater values and `e` values equal to `v`
  (including `v` itself) the positions are `g+1 .. g+e`, whose mean is
  `g + (e+1)/2`.  This is `rankDesc` below.
* `Series.rank(method='min')` (ascending) assigns `1 +` the number of
  strictly smaller values; this is `rankAscMin` below.
* `calculate_rankings` first copies the dataframe, unconditionally adds
  the columns `gdp_rank`, `gmi_rank`, `gdi_rank`, then, if no metric is
  selected, shows an error (`st.error`) and returns the copy as is;
  otherwise it adds `composite_rank_sum`, `final_rank` and `category`.
  `RankResult.error` models the early return (rank columns only),
  `RankResult.ok` the full result.
-/

/-- One row of the country dataframe: identifier columns and the three
raw metric columns (`gdp_per_capita`, `gmi_score`, `gdi_score`). -/
structure Record where
  country : String
  iso_alpha : String
  gdp_per_capita : ℚ
  gmi_score : ℚ
  gdi_score : ℚ
deriving DecidableEq

/-- The three checkbox flags `use_gdp`, `use_gmi`, `use_gdi` passed to
`calculate_rankings`. -/
structure Selection where
  use_gdp : Bool
  use_gmi : Bool
  use_gdi : Bool
deriving DecidableEq

/-- The category labels produced by `assign_category`. -/
inductive Category where
  | Core
  | SemiPeriphery
  | Periphery
deriving DecidableEq

/-- Position of a category on the core-to-periphery axis: smaller is more
core-like (`Core` 0, `Semi-Periphery` 1, `Periphery` 2). -/
def Category.coreLevel : Category → ℕ
  | Category.Core => 0
  | Category.SemiPeriphery => 1
  | Category.Periphery => 2

/-- Pandas `rank(ascending=False)` with the default `method='average'`:
the count of strictly greater values plus the mean position inside the
tie group. -/
def rankDesc (v : ℚ) (vs : List ℚ) : ℚ :=
  (vs.countP (fun w => decide (v < w)) : ℚ)
    + ((vs.countP (fun w => decide (w = v)) : ℚ) + 1) / 2

/-- Descending competition ("minimum") rank: `1 +` the count of strictly
greater values.  Not what the per-metric columns use; kept to relate
`rankDesc` to the tie group's first position. -/
def rankDescMin (v : ℚ) (vs : List ℚ) : ℚ :=
  (vs.countP (fun w => decide (v < w)) : ℚ) + 1

/-- Descending "maximum" rank: the count of values ≥ `v`, i.e. the tie
group's last position in a descending sort. -/
def rankDescMax (v : ℚ) (vs : List ℚ) : ℚ :=
  (vs.countP (fun w => decide (v ≤ w)) : ℚ)

/-- Pandas `rank(method='min')` ascending, used for `final_rank`:
`1 +` the count of strictly smaller values. -/
def rankAscMin (v : ℚ) (vs : List ℚ) : ℚ :=
  (vs.countP (fun w => decide (w < v)) : ℚ) + 1

/-- The `gdp_rank` column: descending average rank of the record's
`gdp_per_capita` within the whole column. -/
def gdpRankOf (df : List Record) (r : Record) : ℚ :=
  rankDesc r.gdp_per_capita (df.map Record.gdp_per_capita)

/-- The `gmi_rank` column. -/
def gmiRankOf (df : List Record) (r : Record) : ℚ :=
  rankDesc r.gmi_score (df.map Record.gmi_score)

/-- The `gdi_rank` column. -/
def gdiRankOf (df : List Record) (r : Record) : ℚ :=
  rankDesc r.gdi_score (df.map Record.gdi_score)

/-- The `composite_rank_sum` column: `df[selected_ranks].sum(axis=1)`,
the sum of the rank columns of the selected metrics. -/
def compositeOf (df : List Record) (s : Selection) (r : Record) : ℚ :=
  (if s.use_gdp then gdpRankOf df r else 0)
    + (if s.use_gmi then gmiRankOf df r else 0)
    + (if s.use_gdi then gdiRankOf df r else 0)

/-- The `final_rank` column: `composite_rank_sum.rank(method='min')`. -/
def finalRankOf (df : List Record) (s : Selection) (r : Record) : ℚ :=
  rankAscMin (compositeOf df s r) (df.map (compositeOf df s))

/-- `tertile_size = n_countries / 3`, exact rational, not rounded. -/
def tertile_size (df : List Record) : ℚ :=
  (df.length : ℚ) / 3

/-- The inner `assign_category(rank)` of `calculate_rankings`. -/
def assign_category (t : ℚ) (rank : ℚ) : Category :=
  if rank ≤ t then Category.Core
  else if rank ≤ 2 * t then Category.SemiPeriphery
  else Category.Periphery

/-- A fully annotated output row: the input record plus the columns
added by `calculate_rankings` on the success path. -/
structure RankedRecord where
  row : Record
  gdp_rank : ℚ
  gmi_rank : ℚ
  gdi_rank : ℚ
  composite_rank_sum : ℚ
  final_rank : ℚ
  category : Category
deriving DecidableEq

/-- An output row of the early-return path: the input record plus only
the three per-metric rank columns (added before the selection check). -/
structure RanksOnly where
  row : Record
  gdp_rank : ℚ
  gmi_rank : ℚ
  gdi_rank : ℚ
deriving DecidableEq

/-- The value `calculate_rankings` hands back: either the dataframe with
only the per-metric rank columns (after `st.error`, zero metrics
selected) or the fully annotated dataframe. -/
inductive RankResult where
  | error (rows : List RanksOnly)
  | ok (rows : List RankedRecord)
deriving DecidableEq

/-- Annotation of one record on the success path of
`calculate_rankings`. -/
def rankRecord (df : List Record) (s : Selection) (r : Record) : RankedRecord :=
  { row := r
    gdp_rank := gdpRankOf df r
    gmi_rank := gmiRankOf df r
    gdi_rank := gdiRankOf df r
    composite_rank_sum := compositeOf df s r
    final_rank := finalRankOf df s r
    category := assign_category (tertile_size df) (finalRankOf df s r) }

/-- Annotation of one record on the early-return path. -/
def ranksOnlyRecord (df : List Record) (r : Record) : RanksOnly :=
  { row := r
    gdp_rank := gdpRankOf df r
    gmi_rank := gmiRankOf df r
    gdi_rank := gdiRankOf df r }

/-- The function `calculate_rankings(df, use_gdp, use_gmi, use_gdi)`.
The three rank columns are computed unconditionally first; the guard
`if not selected_ranks` (all three flags false) leads to `st.error` and
the early return of the copy with only those columns. -/
def calculate_rankings (df : List Record) (s : Selection) : RankResult :=
  if (s.use_gdp || s.use_gmi || s.use_gdi) = false then
    RankResult.error (df.map (ranksOnlyRecord df))
  else
    RankResult.ok (df.map (rankRecord df s))

/-- The fully annotated rows of a result (empty on the error path). -/
def okList : RankResult → List RankedRecord
  | RankResult.error _ => []
  | RankResult.ok rows => rows

/-- The rank-columns-only rows of a result (empty on the success path). -/
def errList : RankResult → List RanksOnly
  | RankResult.error rows => rows
  | RankResult.ok _ => []

/-- One call of `calculate_rankings` seen from the caller: the function
receives the caller's dataframe and immediately rebinds `df = df.copy()`
(line 173), so every subsequent column assignment mutates only the copy.
The pair is (the caller's dataframe after the call, the returned value). -/
def calculate_rankings_call (mem : List Record) (s : Selection) :
    List Record × RankResult :=
  (mem, calculate_rankings mem s)

/-- Three records with one distinguishing metric, values 10, 20, 20, as
in the spec's hand-checked example. -/
def recA : Record := ⟨"A", "AAA", 10, 5, 7⟩

def recB : Record := ⟨"B", "BBB", 20, 4, 8⟩

def recC : Record := ⟨"C", "CCC", 20, 3, 9⟩

def ex3 : List Record := [recA, recB, recC]

def selGdp : Selection := ⟨true, false, false⟩

def selNone : Selection := ⟨false, false, false⟩

def selAll : Selection := ⟨true, true, true⟩

/-- Counting values ≥ v splits into strictly greater and equal. -/
lemma countP_le_split (v : ℚ) (vs : List ℚ) :
    vs.countP (fun w => decide (v ≤ w)) =
      vs.countP (fun w => decide (v < w))
        + vs.countP (fun w => decide (w = v)) := by
  induction vs with
  | nil => simp
  | cons a t ih =>
    simp only [List.countP_cons]
    rcases lt_trichotomy v a with h | h | h
    · have h1 : decide (v ≤ a) = true := by simpa using le_of_lt h
      have h2 : decide (v < a) = true := by simpa using h
      have h3 : decide (a = v) = false := by simp [ne_of_gt h]
      simp [h1, h2, h3, ih]; omega
    · have h1 : decide (v ≤ a) = true := by simp [h]
      have h2 : decide (v < a) = false := by simp [h]
      have h3 : decide (a = v) = true := by simp [h]
      simp [h1, h2, h3, ih]; omega
    · have h1 : decide (v ≤ a) = false := by simpa using h
      have h2 : decide (v < a) = false := by simp [le_of_lt h]
      have h3 : decide (a = v) = false := by simp [ne_of_lt h]
      simp [h1, h2, h3, ih]

/-- The pandas average rank is the midpoint of the tie group's first and
last descending-sort positions. -/
lemma rankDesc_eq_midpoint (v : ℚ) (vs : List ℚ) :
    rankDesc v vs = (rankDescMin v vs + rankDescMax v vs) / 2 := by
  unfold rankDesc rankDescMin rankDescMax
  rw [countP_le_split]
  push_cast
  ring

/-- Membership in the success output comes from annotating a member of
the input dataframe. -/
lemma mem_okList {df : List Record} {s : Selection} {rr : RankedRecord}
    (h : rr ∈ okList (calculate_rankings df s)) :
    ∃ r, r ∈ df ∧ rr = rankRecord df s r := by
  unfold calculate_rankings at h
  by_cases hc : (s.use_gdp || s.use_gmi || s.use_gdi) = false
  · simp [hc, okList] at h
  · simp only [hc, if_false, okList] at h
    rcases List.mem_map.mp h with ⟨r, hr, hrr⟩
    exact ⟨r, hr, hrr.symm⟩

lemma rankDesc_perm (v : ℚ) {vs vs' : List ℚ} (h : vs.Perm vs') :
    rankDesc v vs = rankDesc v vs' := by
  unfold rankDesc
  rw [h.countP_eq, h.countP_eq]

lemma rankAscMin_perm (v : ℚ) {vs vs' : List ℚ} (h : vs.Perm vs') :
    rankAscMin v vs = rankAscMin v vs' := by
  unfold rankAscMin
  rw [h.countP_eq]

lemma gdpRankOf_perm {df df' : List Record} (h : df.Perm df') (r : Record) :
    gdpRankOf df r = gdpRankOf df' r :=
  rankDesc_perm _ (h.map _)

lemma gmiRankOf_perm {df df' : List Record} (h : df.Perm df') (r : Record) :
    gmiRankOf df r = gmiRankOf df' r :=
  rankDesc_perm _ (h.map _)

lemma gdiRankOf_perm {df df' : List Record} (h : df.Perm df') (r : Record) :
    gdiRankOf df r = gdiRankOf df' r :=
  rankDesc_perm _ (h.map _)

lemma compositeOf_perm {df df' : List Record} (h : df.Perm df')
    (s : Selection) (r : Record) :
    compositeOf df s r = compositeOf df' s r := by
  unfold compositeOf
  rw [gdpRankOf_perm h, gmiRankOf_perm h, gdiRankOf_perm h]

lemma finalRankOf_perm {df df' : List Record} (h : df.Perm df')
    (s : Selection) (r : Record) :
    finalRankOf df s r = finalRankOf df' s r := by
  unfold finalRankOf
  rw [compositeOf_perm h]
  have hfun : df'.map (compositeOf df s) = df'.map (compositeOf df' s) :=
    List.map_congr_left (fun a _ => compositeOf_perm h s a)
  exact rankAscMin_perm _ (by rw [← hfun]; exact h.map _)

lemma tertile_size_perm {df df' : List Record} (h : df.Perm df') :
    tertile_size df = tertile_size df' := by
  unfold tertile_size
  rw [h.length_eq]

lemma rankRecord_perm {df df' : List Record} (h : df.Perm df')
    (s : Selection) (r : Record) :
    rankRecord df s r = rankRecord df' s r := by
  unfold rankRecord
  rw [gdpRankOf_perm h, gmiRankOf_perm h, gdiRankOf_perm h,
    compositeOf_perm h, finalRankOf_perm h, tertile_size_perm h]

example :
    (okList (calculate_rankings ex3 selGdp)).map
      (fun rr => rr.gdp_rank) = [3, 3/2, 3/2] := by
  norm_num [calculate_rankings, okList, rankRecord, gdpRankOf, rankDesc,
    ex3, recA, recB, recC, selGdp, List.countP, List.countP.go]

example :
    (okList (calculate_rankings ex3 selGdp)).map
      (fun rr => rr.final_rank) = [3, 1, 1] := by
  norm_num [calculate_rankings, okList, rankRecord, finalRankOf, rankAscMin,
    compositeOf, gdpRankOf, gmiRankOf, gdiRankOf, rankDesc,
    ex3, recA, recB, recC, selGdp, List.countP, List.countP.go]

/-- C1 counterexample: on 3 records with one active metric and values
[10, 20, 20], the per-metric rank column produced by
`calculate_rankings` is [3, 3/2, 3/2] (pandas default average method),
not the [3, 1, 1] claimed (competition/minimum method). -/
theorem C1_counterexample :
    (okList (calculate_rankings ex3 selGdp)).map (fun rr => rr.gdp_rank)
        = [3, 3/2, 3/2]
      ∧ (okList (calculate_rankings ex3 selGdp)).map (fun rr => rr.gdp_rank)
        ≠ [3, 1, 1] := by
  have hval :
      (okList (calculate_rankings ex3 selGdp)).map (fun rr => rr.gdp_rank)
        = [3, 3/2, 3/2] := by
    norm_num [calculate_rankings, okList, rankRecord, gdpRankOf, rankDesc,
      ex3, recA, recB, recC, selGdp, List.countP, List.countP.go]
  refine ⟨hval, ?_⟩
  rw [hval]
  intro hcontra
  simp only [List.cons.injEq] at hcontra
  norm_num at hcontra

/-- C1 (amended): for every active metric, per-metric ranks are computed
over all records in descending value order, but ties receive the AVERAGE
of the tie group's descending-sort positions (pandas' default rank
method), i.e. the midpoint of the competition (minimum) rank and the
maximum rank of the tie group; for values [10, 20, 20] the ranks are
[3, 1.5, 1.5], not [3, 1, 1]. -/
theorem C1_metric_ranks_average (df : List Record) (s : Selection)
    (rr : RankedRecord) (h : rr ∈ okList (calculate_rankings df s)) :
    rr.gdp_rank
        = (rankDescMin rr.row.gdp_per_capita (df.map Record.gdp_per_capita)
            + rankDescMax rr.row.gdp_per_capita (df.map Record.gdp_per_capita)) / 2
      ∧ rr.gmi_rank
        = (rankDescMin rr.row.gmi_score (df.map Record.gmi_score)
            + rankDescMax rr.row.gmi_score (df.map Record.gmi_score)) / 2
      ∧ rr.gdi_rank
        = (rankDescMin rr.row.gdi_score (df.map Record.gdi_score)
            + rankDescMax rr.row.gdi_score (df.map Record.gdi_score)) / 2 := by
  rcases mem_okList h with ⟨r, hr, rfl⟩
  refine ⟨?_, ?_, ?_⟩ <;>
    simpa [rankRecord, gdpRankOf, gmiRankOf, gdiRankOf] using
      rankDesc_eq_midpoint _ _

theorem C1_metric_ranks_average_witness :
    (rankRecord ex3 selGdp recB ∈ okList (calculate_rankings ex3 selGdp))
      ∧ ((rankRecord ex3 selGdp recB).gdp_rank
          = (rankDescMin (rankRecord ex3 selGdp recB).row.gdp_per_capita
                (ex3.map Record.gdp_per_capita)
              + rankDescMax (rankRecord ex3 selGdp recB).row.gdp_per_capita
                (ex3.map Record.gdp_per_capita)) / 2
        ∧ (rankRecord ex3 selGdp recB).gmi_rank
          = (rankDescMin (rankRecord ex3 selGdp recB).row.gmi_score
                (ex3.map Record.gmi_score)
              + rankDescMax (rankRecord ex3 selGdp recB).row.gmi_score
                (ex3.map Record.gmi_score)) / 2
        ∧ (rankRecord ex3 selGdp recB).gdi_rank
          = (rankDescMin (rankRecord ex3 selGdp recB).row.gdi_score
                (ex3.map Record.gdi_score)
              + rankDescMax (rankRecord ex3 selGdp recB).row.gdi_score
                (ex3.map Record.gdi_score)) / 2) :=
  ⟨by simp [calculate_rankings, okList, selGdp, ex3],
    C1_metric_ranks_average ex3 selGdp _
      (by simp [calculate_rankings, okList, selGdp, ex3])⟩

/-- C2 counterexample: with zero active metrics the engine does not fail
without output: it returns the dataframe already annotated with all three
freshly computed per-metric rank columns (partial derived output), since
those columns are added before the selection check. -/
theorem C2_counterexample :
    (errList (calculate_rankings ex3 selNone)).map (fun rr => rr.gdp_rank)
        = [3, 3/2, 3/2]
      ∧ errList (calculate_rankings ex3 selNone) ≠ [] := by
  constructor
  · norm_num [calculate_rankings, errList, ranksOnlyRecord, gdpRankOf,
      rankDesc, ex3, recA, recB, recC, selNone, List.countP, List.countP.go]
  · simp [calculate_rankings, errList, selNone, ex3]

/-- C2 (amended): with zero active metrics the engine signals an error to
the user (`st.error`) instead of raising a `ConfigurationError`, and
returns the records annotated with the three per-metric rank columns
(which were computed before the check); it never produces a full result,
so no composite score, final rank, or category is returned. -/
theorem C2_empty_selection_error (df : List Record) (s : Selection)
    (h : (s.use_gdp || s.use_gmi || s.use_gdi) = false) :
    calculate_rankings df s = RankResult.error (df.map (ranksOnlyRecord df))
      ∧ ∀ rows, calculate_rankings df s ≠ RankResult.ok rows := by
  constructor
  · simp [calculate_rankings, h]
  · intro rows hk
    simp [calculate_rankings, h] at hk

theorem C2_empty_selection_error_witness :
    ((selNone.use_gdp || selNone.use_gmi || selNone.use_gdi) = false)
      ∧ (calculate_rankings ex3 selNone
          = RankResult.error (ex3.map (ranksOnlyRecord ex3))
        ∧ ∀ rows, calculate_rankings ex3 selNone ≠ RankResult.ok rows) :=
  ⟨rfl, C2_empty_selection_error ex3 selNone rfl⟩

/-- C3 counterexample: with only the GDP metric active, the inactive GMI
metric is nonetheless freshly re-ranked: the output's `gmi_rank` column
equals the recomputed descending ranks of the current GMI values
([5, 4, 3] → [1, 2, 3]); no prior or null value is retained. -/
theorem C3_counterexample :
    (okList (calculate_rankings ex3 selGdp)).map (fun rr => rr.gmi_rank)
        = ex3.map (gmiRankOf ex3)
      ∧ ex3.map (gmiRankOf ex3) = [1, 2, 3] := by
  constructor
  · simp [calculate_rankings, okList, selGdp, List.map_map, rankRecord,
      Function.comp]
  · norm_num [gmiRankOf, rankDesc, ex3, recA, recB, recC,
      List.countP, List.countP.go]

/-- C3 (amended): every invocation freshly computes the per-metric rank
columns for all three metrics, active or not (they are added before the
selection is consulted); the selection only determines which rank
columns are summed into the composite score. -/
theorem C3_all_metrics_ranked (df : List Record) (s : Selection)
    (rr : RankedRecord) (h : rr ∈ okList (calculate_rankings df s)) :
    rr.gdp_rank = gdpRankOf df rr.row
      ∧ rr.gmi_rank = gmiRankOf df rr.row
      ∧ rr.gdi_rank = gdiRankOf df rr.row := by
  rcases mem_okList h with ⟨r, hr, rfl⟩
  exact ⟨rfl, rfl, rfl⟩

theorem C3_all_metrics_ranked_witness :
    (rankRecord ex3 selGdp recA ∈ okList (calculate_rankings ex3 selGdp))
      ∧ ((rankRecord ex3 selGdp recA).gdp_rank
            = gdpRankOf ex3 (rankRecord ex3 selGdp recA).row
        ∧ (rankRecord ex3 selGdp recA).gmi_rank
            = gmiRankOf ex3 (rankRecord ex3 selGdp recA).row
        ∧ (rankRecord ex3 selGdp recA).gdi_rank
            = gdiRankOf ex3 (rankRecord ex3 selGdp recA).row) :=
  ⟨by simp [calculate_rankings, okList, selGdp, ex3],
    C3_all_metrics_ranked ex3 selGdp _
      (by simp [calculate_rankings, okList, selGdp, ex3])⟩

/-- Characterization of `assign_category` for a nonnegative tertile
size: Core iff rank ≤ t, Semi-Periphery iff t < rank ≤ 2t, Periphery iff
2t < rank. -/
lemma assign_category_iff (t v : ℚ) (ht : 0 ≤ t) :
    (assign_category t v = Category.Core ↔ v ≤ t)
      ∧ (assign_category t v = Category.SemiPeriphery ↔ (t < v ∧ v ≤ 2 * t))
      ∧ (assign_category t v = Category.Periphery ↔ 2 * t < v) := by
  unfold assign_category
  split_ifs with h1 h2
  · refine ⟨iff_of_true rfl h1, iff_of_false (by simp) ?_,
      iff_of_false (by simp) ?_⟩
    · rintro ⟨hlt, -⟩
      exact absurd h1 (not_le.mpr hlt)
    · intro hlt
      linarith
  · refine ⟨iff_of_false (by simp) ?_,
      iff_of_true rfl ⟨not_le.mp h1, h2⟩, iff_of_false (by simp) ?_⟩
    · intro hle
      exact h1 hle
    · intro hlt
      exact absurd h2 (not_le.mpr hlt)
  · refine ⟨iff_of_false (by simp) ?_, iff_of_false (by simp) ?_,
      iff_of_true rfl (not_le.mp h2)⟩
    · intro hle
      apply h2
      linarith
    · rintro ⟨-, hle⟩
      exact h2 hle

/-- Nine records with distinct values of a single metric, giving the
distinct final ranks 1..9 of the spec's tertile example. -/
def df9 : List Record :=
  [⟨"c1", "C01", 90, 0, 0⟩, ⟨"c2", "C02", 80, 0, 0⟩, ⟨"c3", "C03", 70, 0, 0⟩,
   ⟨"c4", "C04", 60, 0, 0⟩, ⟨"c5", "C05", 50, 0, 0⟩, ⟨"c6", "C06", 40, 0, 0⟩,
   ⟨"c7", "C07", 30, 0, 0⟩, ⟨"c8", "C08", 20, 0, 0⟩, ⟨"c9", "C09", 10, 0, 0⟩]

/-- The record of `df9` whose final rank is 4 (Semi-Periphery). -/
def rec4 : Record := ⟨"c4", "C04", 60, 0, 0⟩

/-- C4: with `tertile_size = N / 3` exact (not rounded), a record of the
output is Core iff `final_rank ≤ tertile_size`, Semi-Periphery iff
`tertile_size < final_rank ≤ 2 * tertile_size`, and Periphery otherwise. -/
theorem C4_tertile_category (df : List Record) (s : Selection)
    (rr : RankedRecord) (h : rr ∈ okList (calculate_rankings df s)) :
    (rr.category = Category.Core ↔ rr.final_rank ≤ tertile_size df)
      ∧ (rr.category = Category.SemiPeriphery
          ↔ (tertile_size df < rr.final_rank
              ∧ rr.final_rank ≤ 2 * tertile_size df))
      ∧ (rr.category = Category.Periphery
          ↔ 2 * tertile_size df < rr.final_rank) := by
  rcases mem_okList h with ⟨r, hr, rfl⟩
  have ht : 0 ≤ tertile_size df := by
    unfold tertile_size
    positivity
  simpa [rankRecord] using
    assign_category_iff (tertile_size df) (finalRankOf df s r) ht

theorem C4_tertile_category_witness :
    (rankRecord df9 selGdp rec4 ∈ okList (calculate_rankings df9 selGdp))
      ∧ (((rankRecord df9 selGdp rec4).category = Category.Core
            ↔ (rankRecord df9 selGdp rec4).final_rank ≤ tertile_size df9)
        ∧ ((rankRecord df9 selGdp rec4).category = Category.SemiPeriphery
            ↔ (tertile_size df9 < (rankRecord df9 selGdp rec4).final_rank
                ∧ (rankRecord df9 selGdp rec4).final_rank
                    ≤ 2 * tertile_size df9))
        ∧ ((rankRecord df9 selGdp rec4).category = Category.Periphery
            ↔ 2 * tertile_size df9 < (rankRecord df9 selGdp rec4).final_rank)) :=
  ⟨by simp [calculate_rankings, okList, selGdp, df9, rec4],
    C4_tertile_category df9 selGdp _
      (by simp [calculate_rankings, okList, selGdp, df9, rec4])⟩

/-- C5: `final_rank` is the rank of `composite_rank_sum` ascending with
the minimum (competition) method: one plus the number of records with a
strictly smaller composite, and records with equal composites share the
same final rank. -/
theorem C5_final_rank_min_method (df : List Record) (s : Selection)
    (rr : RankedRecord) (h : rr ∈ okList (calculate_rankings df s)) :
    rr.final_rank
        = ((df.map (compositeOf df s)).countP
            (fun w => decide (w < rr.composite_rank_sum)) : ℚ) + 1
      ∧ ∀ rr₂ ∈ okList (calculate_rankings df s),
          rr₂.composite_rank_sum = rr.composite_rank_sum →
            rr₂.final_rank = rr.final_rank := by
  rcases mem_okList h with ⟨r, hr, rfl⟩
  constructor
  · simp [rankRecord, finalRankOf, rankAscMin]
  · intro rr₂ h₂ hcomp
    rcases mem_okList h₂ with ⟨r₂, hr₂, rfl⟩
    simp only [rankRecord] at hcomp ⊢
    unfold finalRankOf
    rw [hcomp]

theorem C5_final_rank_min_method_witness :
    (rankRecord ex3 selGdp recB ∈ okList (calculate_rankings ex3 selGdp))
      ∧ ((rankRecord ex3 selGdp recB).final_rank
          = ((ex3.map (compositeOf ex3 selGdp)).countP
              (fun w =>
                decide (w < (rankRecord ex3 selGdp recB).composite_rank_sum)) : ℚ)
            + 1
        ∧ ∀ rr₂ ∈ okList (calculate_rankings ex3 selGdp),
            rr₂.composite_rank_sum
                = (rankRecord ex3 selGdp recB).composite_rank_sum →
              rr₂.final_rank = (rankRecord ex3 selGdp recB).final_rank) :=
  ⟨by simp [calculate_rankings, okList, selGdp, ex3],
    C5_final_rank_min_method ex3 selGdp _
      (by simp [calculate_rankings, okList, selGdp, ex3])⟩

/-- C6: the composite score of every output record is exactly the sum of
that record's per-metric rank columns over the active metrics, with no
other terms. -/
theorem C6_composite_sum (df : List Record) (s : Selection)
    (rr : RankedRecord) (h : rr ∈ okList (calculate_rankings df s)) :
    rr.composite_rank_sum
      = (if s.use_gdp then rr.gdp_rank else 0)
        + (if s.use_gmi then rr.gmi_rank else 0)
        + (if s.use_gdi then rr.gdi_rank else 0) := by
  rcases mem_okList h with ⟨r, hr, rfl⟩
  rfl

theorem C6_composite_sum_witness :
    (rankRecord ex3 selAll recA ∈ okList (calculate_rankings ex3 selAll))
      ∧ (rankRecord ex3 selAll recA).composite_rank_sum
        = (if selAll.use_gdp then (rankRecord ex3 selAll recA).gdp_rank else 0)
          + (if selAll.use_gmi then (rankRecord ex3 selAll recA).gmi_rank else 0)
          + (if selAll.use_gdi then (rankRecord ex3 selAll recA).gdi_rank else 0) :=
  ⟨by simp [calculate_rankings, okList, selAll, ex3],
    C6_composite_sum ex3 selAll _
      (by simp [calculate_rankings, okList, selAll, ex3])⟩

/-- Permuting the input dataframe permutes the success output
accordingly. -/
lemma okList_perm {df df' : List Record} (h : df.Perm df') (s : Selection) :
    (okList (calculate_rankings df s)).Perm
      (okList (calculate_rankings df' s)) := by
  unfold calculate_rankings
  by_cases hc : (s.use_gdp || s.use_gmi || s.use_gdi) = false
  · simp [hc, okList]
  · simp only [hc, if_false, okList]
    have hmap : df'.map (rankRecord df' s) = df'.map (rankRecord df s) :=
      List.map_congr_left (fun a _ => (rankRecord_perm h s a).symm)
    rw [hmap]
    exact h.map _

def df2 : List Record := [recA, recB]

def df2' : List Record := [recB, recA]

/-- C7: the engine is deterministic (identical records and selection
give identical output) and order-independent: for any permutation of
the input records, every record receives the same annotation (ranks,
composite, final rank, category), and the output rows are the matching
permutation of the original output rows. -/
theorem C7_deterministic_order_independent (df df' : List Record)
    (s : Selection) (h : df.Perm df') :
    (∀ df₁ df₂ s₁ s₂, df₁ = df₂ → s₁ = s₂ →
        calculate_rankings df₁ s₁ = calculate_rankings df₂ s₂)
      ∧ (∀ r : Record, rankRecord df s r = rankRecord df' s r)
      ∧ (okList (calculate_rankings df s)).Perm
          (okList (calculate_rankings df' s)) := by
  refine ⟨?_, fun r => rankRecord_perm h s r, okList_perm h s⟩
  rintro df₁ df₂ s₁ s₂ rfl rfl
  rfl

theorem C7_deterministic_order_independent_witness :
    df2.Perm df2'
      ∧ ((∀ df₁ df₂ s₁ s₂, df₁ = df₂ → s₁ = s₂ →
            calculate_rankings df₁ s₁ = calculate_rankings df₂ s₂)
        ∧ (∀ r : Record, rankRecord df2 selAll r = rankRecord df2' selAll r)
        ∧ (okList (calculate_rankings df2 selAll)).Perm
            (okList (calculate_rankings df2' selAll))) :=
  ⟨List.Perm.swap recB recA [],
    C7_deterministic_order_independent df2 df2' selAll
      (List.Perm.swap recB recA [])⟩

/-- C8: a call of the engine leaves the caller's dataframe unchanged
(the function works on a copy), and each invocation is independent of
previous ones: invoking after any earlier invocation with any other
selection yields the same result as invoking fresh. -/
theorem C8_no_side_effects (mem : List Record) (s s' : Selection) :
    (calculate_rankings_call mem s).1 = mem
      ∧ (calculate_rankings_call ((calculate_rankings_call mem s').1) s).2
          = (calculate_rankings_call mem s).2
      ∧ (calculate_rankings_call mem s).2 = calculate_rankings mem s :=
  ⟨rfl, rfl, rfl⟩

/-- C9: whenever the engine produces a full result, there is exactly one
output row per input record, and every output row carries exactly one
category, drawn from Core, Semi-Periphery, Periphery. -/
theorem C9_category_total (df : List Record) (s : Selection)
    (rows : List RankedRecord)
    (h : calculate_rankings df s = RankResult.ok rows) :
    rows.length = df.length
      ∧ (∀ r ∈ df, rankRecord df s r ∈ rows)
      ∧ ∀ rr ∈ rows,
          (rr.category = Category.Core
              ∧ rr.category ≠ Category.SemiPeriphery
              ∧ rr.category ≠ Category.Periphery)
            ∨ (rr.category = Category.SemiPeriphery
              ∧ rr.category ≠ Category.Core
              ∧ rr.category ≠ Category.Periphery)
            ∨ (rr.category = Category.Periphery
              ∧ rr.category ≠ Category.Core
              ∧ rr.category ≠ Category.SemiPeriphery) := by
  unfold calculate_rankings at h
  by_cases hc : (s.use_gdp || s.use_gmi || s.use_gdi) = false
  · simp [hc] at h
  · simp only [hc, if_false] at h
    injection h with h
    subst h
    refine ⟨List.length_map .., fun r hr => List.mem_map_of_mem _ hr, ?_⟩
    intro rr hrr
    rcases rr with ⟨row, g1, g2, g3, cs, fr, cat⟩
    cases cat <;> simp

theorem C9_category_total_witness :
    calculate_rankings ex3 selGdp
        = RankResult.ok (ex3.map (rankRecord ex3 selGdp))
      ∧ ((ex3.map (rankRecord ex3 selGdp)).length = ex3.length
        ∧ (∀ r ∈ ex3, rankRecord ex3 selGdp r ∈ ex3.map (rankRecord ex3 selGdp))
        ∧ ∀ rr ∈ ex3.map (rankRecord ex3 selGdp),
            (rr.category = Category.Core
                ∧ rr.category ≠ Category.SemiPeriphery
                ∧ rr.category ≠ Category.Periphery)
              ∨ (rr.category = Category.SemiPeriphery
                ∧ rr.category ≠ Category.Core
                ∧ rr.category ≠ Category.Periphery)
              ∨ (rr.category = Category.Periphery
                ∧ rr.category ≠ Category.Core
                ∧ rr.category ≠ Category.SemiPeriphery)) :=
  ⟨rfl, C9_category_total ex3 selGdp _ rfl⟩

/-- Monotonicity of the tertile split: a better (smaller) final rank
never yields a less core-like category. -/
lemma assign_category_mono (t : ℚ) {a b : ℚ} (hab : a ≤ b) :
    (assign_category t a).coreLevel ≤ (assign_category t b).coreLevel := by
  unfold assign_category
  split_ifs <;>
    first
      | (exfalso; linarith)
      | norm_num [Category.coreLevel]

/-- C10: category assignment is monotone in final rank: among output
rows, if one final rank is at most another, the first row's category is
at least as core-like (Core before Semi-Periphery before Periphery). -/
theorem C10_category_monotone (df : List Record) (s : Selection)
    (a b : RankedRecord) (ha : a ∈ okList (calculate_rankings df s))
    (hb : b ∈ okList (calculate_rankings df s))
    (hab : a.final_rank ≤ b.final_rank) :
    a.category.coreLevel ≤ b.category.coreLevel := by
  rcases mem_okList ha with ⟨ra, hra, rfl⟩
  rcases mem_okList hb with ⟨rb, hrb, rfl⟩
  simp only [rankRecord] at hab ⊢
  exact assign_category_mono _ hab

theorem C10_category_monotone_witness :
    (rankRecord ex3 selGdp recB ∈ okList (calculate_rankings ex3 selGdp))
      ∧ (rankRecord ex3 selGdp recA ∈ okList (calculate_rankings ex3 selGdp))
      ∧ (rankRecord ex3 selGdp recB).final_rank
          ≤ (rankRecord ex3 selGdp recA).final_rank
      ∧ (rankRecord ex3 selGdp recB).category.coreLevel
          ≤ (rankRecord ex3 selGdp recA).category.coreLevel :=
  ⟨by simp [calculate_rankings, okList, selGdp, ex3],
    by simp [calculate_rankings, okList, selGdp, ex3],
    by norm_num [rankRecord, finalRankOf, rankAscMin, compositeOf, gdpRankOf,
      gmiRankOf, gdiRankOf, rankDesc, ex3, recA, recB, recC, selGdp,
      List.countP, List.countP.go],
    C10_category_monotone ex3 selGdp _ _
      (by simp [calculate_rankings, okList, selGdp, ex3])
      (by simp [calculate_rankings, okList, selGdp, ex3])
      (by norm_num [rankRecord, finalRankOf, rankAscMin, compositeOf, gdpRankOf,
        gmiRankOf, gdiRankOf, rankDesc, ex3, recA, recB, recC, selGdp,
        List.countP, List.countP.go])⟩
